import Mathlib

/-!
Verification of the extraction/parsing layer and job-lifecycle client of the
modernization dashboard (frontend/src/components/modernization/
DatabaseSchemaVisualization.jsx and the ModernizationDashboard component).

The JavaScript regex scanners are embedded as hand-rolled recursive matchers
over `List Char`, one per regular expression appearing in the source, with the
same leftmost-match, greedy/lazy semantics as the originals.  The polling
`useEffect` is embedded as a step function on an explicit client state driven
by a trace of network responses.
-/

namespace Modernization

/-! ### Character classes (JS `\w`, `\s`, quote set) -/

/-- JS `\w`: ASCII letters, digits, underscore. -/
def isWordChar (c : Char) : Bool :=
  (('a' ≤ c && c ≤ 'z') || ('A' ≤ c && c ≤ 'Z') || ('0' ≤ c && c ≤ '9') || c = '_')

/-- JS `\s` (ASCII part): space, tab, newline, carriage return, vertical tab, form feed. -/
def isSpaceChar (c : Char) : Bool :=
  (c = ' ' || c = '\t' || c = '\n' || c = '\r' || c = '\x0b' || c = '\x0c')

/-- The character class `['"]` of the endpoint regex. -/
def isQuoteChar (c : Char) : Bool :=
  (c = '\'' || c = '"')

/-- Uppercase a list of characters (JS `toUpperCase` restricted to ASCII input). -/
def upperList (l : List Char) : List Char := l.map Char.toUpper

/-- Uppercase a string. -/
def upperStr (s : String) : String := String.mk (upperList s.data)

/-- Lowercase a string (JS `toLowerCase` restricted to ASCII input). -/
def lowerStr (s : String) : String := String.mk (s.data.map Char.toLower)

/-! ### Generic scanning combinators

Each combinator consumes characters from the front of a `List Char` and
returns the remainder (and captures), or `none` if the pattern does not
match at this position. -/

/-- Match a literal case-insensitively (the literal is given uppercased);
return the remainder. -/
def dropLitCI : List Char → List Char → Option (List Char)
  | [], l => some l
  | _ :: _, [] => none
  | a :: as, c :: cs => if c.toUpper = a then dropLitCI as cs else none

/-- `\s*` : drop zero or more whitespace characters (greedy). -/
def dropWSMany (l : List Char) : List Char := l.dropWhile isSpaceChar

/-- `\s+` : drop one or more whitespace characters (greedy). -/
def dropWS1 : List Char → Option (List Char)
  | [] => none
  | c :: cs => if isSpaceChar c then some (cs.dropWhile isSpaceChar) else none

/-- Match one exact character. -/
def dropCharExact (a : Char) : List Char → Option (List Char)
  | [] => none
  | c :: cs => if c = a then some cs else none

/-- `p+` (greedy): capture one or more characters satisfying `p`. -/
def takeWhile1 (p : Char → Bool) : List Char → Option (List Char × List Char)
  | [] => none
  | c :: cs => if p c then some (c :: cs.takeWhile p, cs.dropWhile p) else none

/-- `(\w+)` : capture one or more word characters (greedy). -/
def takeWord1 (l : List Char) : Option (List Char × List Char) :=
  takeWhile1 isWordChar l

/-- Match a literal exactly (case-sensitively); return the remainder. -/
def dropLitExact : List Char → List Char → Option (List Char)
  | [], l => some l
  | _ :: _, [] => none
  | a :: as, c :: cs => if c = a then dropLitExact as cs else none

/-- `([\s\S]*?)lit` (lazy): capture everything up to the first occurrence of
the literal `lit`, consuming the literal as well. -/
def takeUntilLit (lit : List Char) : List Char → Option (List Char × List Char)
  | [] => none
  | c :: cs =>
    match dropLitExact lit (c :: cs) with
    | some rest => some ([], rest)
    | none =>
      match takeUntilLit lit cs with
      | some (body, rest) => some (c :: body, rest)
      | none => none

/-- Substring containment, JS `String.prototype.includes`. -/
def containsSub (needle : List Char) : List Char → Bool
  | [] => needle.isEmpty
  | c :: cs => (needle.isPrefixOf (c :: cs)) || containsSub needle cs

/-- Split on runs of whitespace, dropping empty tokens (fuel-indexed so the
definition is structurally recursive; fuel = input length always suffices).
On a trimmed string this agrees with JS `split(/\s+/)`. -/
def wsTokensAux : Nat → List Char → List (List Char)
  | 0, _ => []
  | _ + 1, [] => []
  | f + 1, c :: cs =>
    if isSpaceChar c then wsTokensAux f cs
    else (c :: cs.takeWhile (fun d => !isSpaceChar d)) ::
      wsTokensAux f (cs.dropWhile (fun d => !isSpaceChar d))

/-- Split on runs of whitespace, dropping empty tokens. -/
def wsTokens (l : List Char) : List (List Char) := wsTokensAux l.length l

/-- JS `split(',')`: split on every comma; `[]` input yields one empty piece,
like `"".split(',') == [""]`. -/
def splitOnComma : List Char → List (List Char)
  | [] => [[]]
  | c :: cs =>
    if c = ',' then [] :: splitOnComma cs
    else
      match splitOnComma cs with
      | t :: ts => (c :: t) :: ts
      | [] => [[c]]

/-- JS `trim`: strip whitespace from both ends. -/
def trimList (l : List Char) : List Char :=
  ((l.dropWhile isSpaceChar).reverse.dropWhile isSpaceChar).reverse

/-! ### Data model -/

/-- Column record produced by `parseColumns` (DatabaseSchemaVisualization). -/
structure Column where
  name : String
  type : String
  isPrimary : Bool
  isNotNull : Bool
  isUnique : Bool
  hasDefault : Bool
deriving Repr, DecidableEq

/-- Column record produced by `parseSchemaFromSQL` (ModernizationDashboard),
which carries only four of the six fields. -/
structure SimpleColumn where
  name : String
  type : String
  isPrimary : Bool
  isNotNull : Bool
deriving Repr, DecidableEq

/-- Foreign-key relationship record produced by `findRelationships`. -/
structure Relationship where
  fromColumn : String
  toTable : String
  toColumn : String
deriving Repr, DecidableEq

/-- Table record produced by `parseSQLTables`. -/
structure Table where
  name : String
  columns : List Column
  relationships : List Relationship
deriving Repr, DecidableEq

/-- Table record produced by `parseSchemaFromSQL`. -/
structure STable where
  name : String
  columns : List SimpleColumn
  relationships : List Relationship
deriving Repr, DecidableEq

/-- Endpoint record produced by `parseAPIEndpoints`. -/
structure Endpoint where
  method : String
  path : String
  description : String
  parameters : List String
  response : String
deriving Repr, DecidableEq

/-! ### `parseColumns` (DatabaseSchemaVisualization.jsx lines 46-69)

```js
const lines = columnsSection.split(',');
lines.forEach(line => {
  const trimmed = line.trim();
  if (trimmed && !trimmed.toUpperCase().includes('CONSTRAINT')
              && !trimmed.toUpperCase().includes('FOREIGN KEY')) {
    const parts = trimmed.split(/\s+/);
    if (parts.length >= 2) { columns.push({ name: parts[0], type: parts[1],
      isPrimary: ...includes('PRIMARY KEY'), isNotNull: ...includes('NOT NULL'),
      isUnique: ...includes('UNIQUE'), hasDefault: ...includes('DEFAULT') }); }
  }
});
``` -/

/-- The body of the `forEach` above, for a single comma-separated fragment. -/
def parseColumnFragment (line : List Char) : Option Column :=
  let trimmed := trimList line
  let up := upperList trimmed
  if !trimmed.isEmpty && !containsSub "CONSTRAINT".data up
      && !containsSub "FOREIGN KEY".data up then
    match wsTokens trimmed with
    | p0 :: p1 :: _ =>
      some { name := String.mk p0, type := String.mk p1,
             isPrimary := containsSub "PRIMARY KEY".data up,
             isNotNull := containsSub "NOT NULL".data up,
             isUnique := containsSub "UNIQUE".data up,
             hasDefault := containsSub "DEFAULT".data up }
    | _ => none
  else none

/-- `parseColumns` from the source: split on every comma, keep the fragments
that yield a column. -/
def parseColumns (columnsSection : String) : List Column :=
  (splitOnComma columnsSection.data).filterMap parseColumnFragment

/-! ### `findRelationships` (lines 71-85)

Regex: `/FOREIGN\s+KEY\s*\(([^)]+)\)\s+REFERENCES\s+(\w+)\s*\(([^)]+)\)/gi`,
captures 1 and 3 trimmed. -/

/-- Attempt to match the foreign-key regex at the current position. -/
def tryMatchFK (l : List Char) : Option (Relationship × List Char) :=
  (dropLitCI "FOREIGN".data l).bind fun l1 =>
  (dropWS1 l1).bind fun l2 =>
  (dropLitCI "KEY".data l2).bind fun l3 =>
  (dropCharExact '(' (dropWSMany l3)).bind fun l4 =>
  (takeWhile1 (fun c => c ≠ ')') l4).bind fun cap1 =>
  (dropCharExact ')' cap1.2).bind fun l6 =>
  (dropWS1 l6).bind fun l7 =>
  (dropLitCI "REFERENCES".data l7).bind fun l8 =>
  (dropWS1 l8).bind fun l9 =>
  (takeWord1 l9).bind fun cap2 =>
  (dropCharExact '(' (dropWSMany cap2.2)).bind fun l11 =>
  (takeWhile1 (fun c => c ≠ ')') l11).bind fun cap3 =>
  (dropCharExact ')' cap3.2).bind fun l13 =>
  some (⟨String.mk (trimList cap1.1), String.mk cap2.1,
        String.mk (trimList cap3.1)⟩, l13)

/-- Global scan with the foreign-key regex (fuel = remaining length suffices). -/
def scanFKAux : Nat → List Char → List Relationship
  | 0, _ => []
  | _ + 1, [] => []
  | f + 1, c :: cs =>
    match tryMatchFK (c :: cs) with
    | some (r, rest) => r :: scanFKAux f rest
    | none => scanFKAux f cs

/-- `findRelationships` from the source. -/
def findRelationships (columnsSection : String) : List Relationship :=
  scanFKAux columnsSection.data.length columnsSection.data

/-! ### `parseSQLTables` (lines 26-44)

Regex: `/CREATE\s+TABLE\s+(\w+)\s*\(([\s\S]*?)\);/gi`; each block yields
`{ name, columns: parseColumns(body), relationships: findRelationships(body) }`. -/

/-- Attempt to match one `CREATE TABLE` block at the current position. -/
def tryMatchCreate (l : List Char) : Option (Table × List Char) :=
  (dropLitCI "CREATE".data l).bind fun l1 =>
  (dropWS1 l1).bind fun l2 =>
  (dropLitCI "TABLE".data l2).bind fun l3 =>
  (dropWS1 l3).bind fun l4 =>
  (takeWord1 l4).bind fun cap1 =>
  (dropCharExact '(' (dropWSMany cap1.2)).bind fun l6 =>
  (takeUntilLit ");".data l6).bind fun cap2 =>
  some (⟨String.mk cap1.1, parseColumns (String.mk cap2.1),
        findRelationships (String.mk cap2.1)⟩, cap2.2)

/-- Global scan with the `CREATE TABLE` regex. -/
def scanTablesAux : Nat → List Char → List Table
  | 0, _ => []
  | _ + 1, [] => []
  | f + 1, c :: cs =>
    match tryMatchCreate (c :: cs) with
    | some (t, rest) => t :: scanTablesAux f rest
    | none => scanTablesAux f cs

/-- `parseSQLTables` from the source. -/
def parseSQLTables (sql : String) : List Table :=
  scanTablesAux sql.data.length sql.data

/-! ### `parseSchemaFromSQL` (ModernizationDashboard, lines 1274-1307)

Table regex: `/CREATE TABLE (\w+)\s*\(([\s\S]*?)\);/gi` (literal single
spaces).  Each comma-separated body fragment is trimmed and then matched
against `/(\w+)\s+([\w\(\)]+)(\s+PRIMARY KEY)?(\s+NOT NULL)?/i` (first match
anywhere in the fragment); `relationships` is always the empty list. -/

/-- Attempt the column regex of `parseSchemaFromSQL` at the current position. -/
def tryMatchCol (l : List Char) : Option SimpleColumn :=
  (takeWord1 l).bind fun cap1 =>
  (dropWS1 cap1.2).bind fun l2 =>
  (takeWhile1 (fun c => isWordChar c || c = '(' || c = ')') l2).bind fun cap2 =>
  let prim :=
    match (dropWS1 cap2.2).bind (dropLitCI "PRIMARY KEY".data) with
    | some l5 => (true, l5)
    | none => (false, cap2.2)
  let nn :=
    match (dropWS1 prim.2).bind (dropLitCI "NOT NULL".data) with
    | some _ => true
    | none => false
  some ⟨String.mk cap1.1, String.mk cap2.1, prim.1, nn⟩

/-- JS `line.match(regex)` without the `g` flag: first match, searching from
every position left to right. -/
def findColMatchAux : Nat → List Char → Option SimpleColumn
  | 0, _ => none
  | _ + 1, [] => none
  | f + 1, c :: cs =>
    match tryMatchCol (c :: cs) with
    | some col => some col
    | none => findColMatchAux f cs

/-- Columns of one `parseSchemaFromSQL` table body. -/
def parseSchemaColumns (columnsStr : String) : List SimpleColumn :=
  ((splitOnComma columnsStr.data).map trimList).filterMap
    (fun line => findColMatchAux line.length line)

/-- Attempt to match one `CREATE TABLE` block of `parseSchemaFromSQL`
(literal single spaces in the keyword part). -/
def tryMatchCreate2 (l : List Char) : Option (STable × List Char) :=
  (dropLitCI "CREATE TABLE ".data l).bind fun l1 =>
  (takeWord1 l1).bind fun cap1 =>
  (dropCharExact '(' (dropWSMany cap1.2)).bind fun l3 =>
  (takeUntilLit ");".data l3).bind fun cap2 =>
  some (⟨String.mk cap1.1, parseSchemaColumns (String.mk cap2.1), []⟩, cap2.2)

/-- Global scan with the `parseSchemaFromSQL` table regex. -/
def scanTables2Aux : Nat → List Char → List STable
  | 0, _ => []
  | _ + 1, [] => []
  | f + 1, c :: cs =>
    match tryMatchCreate2 (c :: cs) with
    | some (t, rest) => t :: scanTables2Aux f rest
    | none => scanTables2Aux f cs

/-- `parseSchemaFromSQL` from the source.  The argument is optional because
the JS function receives a possibly missing field and guards with
`if (!sqlString) return []` (false for `undefined` and for `""`). -/
def parseSchemaFromSQL (sqlString : Option String) : List STable :=
  match sqlString with
  | none => []
  | some s => if s = "" then [] else scanTables2Aux s.data.length s.data

/-! ### `parseAPIEndpoints` (lines 1310-1337)

Regex: `/app\.(get|post|put|delete)\s*\(\s*['"]([^'"]+)['"]/gi`.  The method
capture is only ever used upper-cased, so the matcher returns it already
upper-cased.  If the scan finds nothing, a fixed 3-element fallback list is
returned — but only after the `if (!apiCode) return []` guard. -/

/-- The method alternation `(get|post|put|delete)`, case-insensitive,
returning the upper-cased method. -/
def tryMethod (l : List Char) : Option (String × List Char) :=
  match dropLitCI "GET".data l with
  | some r => some ("GET", r)
  | none =>
    match dropLitCI "POST".data l with
    | some r => some ("POST", r)
    | none =>
      match dropLitCI "PUT".data l with
      | some r => some ("PUT", r)
      | none =>
        match dropLitCI "DELETE".data l with
        | some r => some ("DELETE", r)
        | none => none

/-- The character class `['"]`: one quote character of either kind. -/
def dropQuote : List Char → Option (List Char)
  | [] => none
  | c :: cs => if isQuoteChar c then some cs else none

/-- Attempt the endpoint regex at the current position.  Note the regex does
not require the closing quote to be the same character as the opening one. -/
def tryMatchEndpoint (l : List Char) : Option (Endpoint × List Char) :=
  (dropLitCI "APP.".data l).bind fun l1 =>
  (tryMethod l1).bind fun cap1 =>
  (dropCharExact '(' (dropWSMany cap1.2)).bind fun l3 =>
  (dropQuote (dropWSMany l3)).bind fun l4 =>
  (takeWhile1 (fun c => !isQuoteChar c) l4).bind fun cap2 =>
  (dropQuote cap2.2).bind fun l6 =>
  some (⟨cap1.1, String.mk cap2.1,
        cap1.1 ++ " endpoint for " ++ String.mk cap2.1, [],
        "JSON response"⟩, l6)

/-- Global scan with the endpoint regex. -/
def scanEndpointsAux : Nat → List Char → List Endpoint
  | 0, _ => []
  | _ + 1, [] => []
  | f + 1, c :: cs =>
    match tryMatchEndpoint (c :: cs) with
    | some (e, rest) => e :: scanEndpointsAux f rest
    | none => scanEndpointsAux f cs

/-- The fixed fallback list of the source (methods, paths, descriptions,
parameters and responses exactly as written). -/
def fallbackEndpoints : List Endpoint :=
  [ ⟨"GET", "/api/data", "Get all records", [], "Array of records"⟩,
    ⟨"GET", "/api/data/:id", "Get record by ID", ["id"], "Single record"⟩,
    ⟨"POST", "/api/data", "Create new record", [], "Created record"⟩ ]

/-- `parseAPIEndpoints` from the source; optional argument for the same
truthiness guard `if (!apiCode) return []` as `parseSchemaFromSQL`. -/
def parseAPIEndpoints (apiCode : Option String) : List Endpoint :=
  match apiCode with
  | none => []
  | some s =>
    if s = "" then []
    else
      let endpoints := scanEndpointsAux s.data.length s.data
      if endpoints.isEmpty then fallbackEndpoints else endpoints

/-! ### Multipart part-name policy of `handleFileUpload` (lines 1189-1202)

```js
const name = file.name.toLowerCase();
if (name.endsWith('.cpy')) formData.append('copybook', file);
else if (name.endsWith('.dat')) formData.append('datafile', file);
else formData.append('file', file);
``` -/

/-- Suffix test on strings, JS `String.prototype.endsWith`. -/
def endsWithStr (s suffixStr : String) : Bool :=
  suffixStr.data.isSuffixOf s.data

/-- The multipart part name chosen for a submitted file. -/
def uploadPartName (fileName : String) : String :=
  let name := lowerStr fileName
  if endsWithStr name ".cpy" then "copybook"
  else if endsWithStr name ".dat" then "datafile"
  else "file"

/-! ### Job-lifecycle polling client (ModernizationDashboard, lines 1152-1180)

The `useEffect` installs a 2-second interval; each tick fetches
`/status/<jobId>`; on `completed` it additionally fetches `/result/<jobId>`,
hands the payload to `onProcessFile`, clears the interval and the error; on
`failed` it stores `status.error || 'Processing failed. Please try again.'`
and clears the interval; on any exception it stores the connection-error
message and does NOT clear the interval.  A tick of a cleared interval never
runs. -/

/-- Outcome of one `/status` fetch: the call throws, or returns a parsed
JSON object with a `status` string and an optional `error` string. -/
inductive StatusResp where
  | throws
  | ok (status : String) (error : Option String)
deriving Repr, DecidableEq

/-- Outcome of one `/result` fetch. -/
inductive ResultResp where
  | throws
  | ok (res : String)
deriving Repr, DecidableEq

/-- Observable client state of the polling effect. -/
structure ClientState where
  cleared : Bool
  error : Option String
  processed : Option String
deriving Repr, DecidableEq

/-- A network call issued during a tick, in issue order. -/
inductive NetEvent where
  | statusFetch
  | resultFetch
deriving Repr, DecidableEq

/-- Message stored by the `catch` block. -/
def connErrMsg : String := "Connection error. Please check if the server is running."

/-- Fallback message of `status.error || '...'`. -/
def genericFailMsg : String := "Processing failed. Please try again."

/-- JS `a || b` on an optional string: `b` when the field is absent or the
empty string (both falsy). -/
def jsOr (e : Option String) (d : String) : String :=
  match e with
  | none => d
  | some s => if s = "" then d else s

/-- One interval tick.  `sr` is the environment's answer to the status fetch
and `rr` its answer to the result fetch (consulted only when issued).
Returns the new state and the network calls issued by this tick. -/
def tick (st : ClientState) (sr : StatusResp) (rr : ResultResp) :
    ClientState × List NetEvent :=
  if st.cleared then (st, [])
  else
    match sr with
    | .throws => ({ st with error := some connErrMsg }, [.statusFetch])
    | .ok status err =>
      if status = "completed" then
        match rr with
        | .throws =>
          ({ st with error := some connErrMsg }, [.statusFetch, .resultFetch])
        | .ok r =>
          ({ cleared := true, error := none, processed := some r },
           [.statusFetch, .resultFetch])
      else if status = "failed" then
        ({ st with cleared := true, error := some (jsOr err genericFailMsg) },
         [.statusFetch])
      else (st, [.statusFetch])

/-- Run the polling loop over a trace of environment responses, collecting
the network calls in order. -/
def runPoll (st : ClientState) : List (StatusResp × ResultResp) →
    ClientState × List NetEvent
  | [] => (st, [])
  | t :: ts =>
    let s1 := tick st t.1 t.2
    let s2 := runPoll s1.1 ts
    (s2.1, s1.2 ++ s2.2)

/-- State right after the interval is installed. -/
def initClient : ClientState := ⟨false, none, none⟩

/-- The two-block scenario DDL of the specification: two `CREATE TABLE`
blocks, the second referencing the first through a `FOREIGN KEY` clause. -/
def twoTableSQL : String :=
  "CREATE TABLE customers (customer_id INT PRIMARY KEY);\nCREATE TABLE orders (order_id INT PRIMARY KEY, customer_id INT, FOREIGN KEY (customer_id) REFERENCES customers(customer_id));"

/-! ### Consumption lemmas: every matcher consumes at least one character,
so fuel equal to the input length always completes the scan. -/

theorem length_dropWhile_le (p : Char → Bool) (l : List Char) :
    (l.dropWhile p).length ≤ l.length := by
  induction l with
  | nil => simp [List.dropWhile]
  | cons c cs ih =>
    by_cases h : p c
    · simp [List.dropWhile_cons_of_pos h]; omega
    · simp [List.dropWhile_cons_of_neg h]

theorem dropLitCI_length {lit l r : List Char} (h : dropLitCI lit l = some r) :
    r.length ≤ l.length := by
  induction lit generalizing l with
  | nil => simp [dropLitCI] at h; simp [h]
  | cons a as ih =>
    cases l with
    | nil => simp [dropLitCI] at h
    | cons c cs =>
      simp only [dropLitCI] at h
      split at h
      · exact Nat.le_trans (ih h) (Nat.le_succ _)
      · exact absurd h (by simp)

theorem dropLitExact_length {lit l r : List Char} (h : dropLitExact lit l = some r) :
    r.length ≤ l.length := by
  induction lit generalizing l with
  | nil => simp [dropLitExact] at h; simp [h]
  | cons a as ih =>
    cases l with
    | nil => simp [dropLitExact] at h
    | cons c cs =>
      simp only [dropLitExact] at h
      split at h
      · exact Nat.le_trans (ih h) (Nat.le_succ _)
      · exact absurd h (by simp)

theorem dropWSMany_length (l : List Char) : (dropWSMany l).length ≤ l.length :=
  length_dropWhile_le _ l

theorem dropWS1_length {l r : List Char} (h : dropWS1 l = some r) :
    r.length ≤ l.length := by
  cases l with
  | nil => simp [dropWS1] at h
  | cons c cs =>
    simp only [dropWS1] at h
    split at h
    · cases h
      exact Nat.le_trans (length_dropWhile_le _ cs) (Nat.le_succ _)
    · exact absurd h (by simp)

theorem dropCharExact_length {a : Char} {l r : List Char}
    (h : dropCharExact a l = some r) : r.length ≤ l.length := by
  cases l with
  | nil => simp [dropCharExact] at h
  | cons c cs =>
    simp only [dropCharExact] at h
    split at h
    · cases h; exact Nat.le_succ _
    · exact absurd h (by simp)

theorem dropLitCI_length_lt {lit l r : List Char} (hlit : lit ≠ [])
    (h : dropLitCI lit l = some r) : r.length < l.length := by
  cases lit with
  | nil => exact absurd rfl hlit
  | cons a as =>
    cases l with
    | nil => simp [dropLitCI] at h
    | cons c cs =>
      simp only [dropLitCI] at h
      split at h
      · exact Nat.lt_succ_of_le (dropLitCI_length h)
      · exact absurd h (by simp)

theorem takeWhile1_length {p : Char → Bool} {l : List Char}
    {pr : List Char × List Char} (h : takeWhile1 p l = some pr) :
    pr.2.length < l.length := by
  cases l with
  | nil => simp [takeWhile1] at h
  | cons c cs =>
    simp only [takeWhile1] at h
    split at h
    · cases h
      exact Nat.lt_succ_of_le (length_dropWhile_le _ cs)
    · exact absurd h (by simp)

theorem takeWord1_length {l : List Char} {pr : List Char × List Char}
    (h : takeWord1 l = some pr) : pr.2.length < l.length :=
  takeWhile1_length h

theorem dropQuote_length {l r : List Char} (h : dropQuote l = some r) :
    r.length < l.length := by
  cases l with
  | nil => simp [dropQuote] at h
  | cons c cs =>
    simp only [dropQuote] at h
    split at h
    · cases h; exact Nat.lt_succ_of_le (Nat.le_refl _)
    · exact absurd h (by simp)

theorem takeUntilLit_length {lit l : List Char} {pr : List Char × List Char}
    (h : takeUntilLit lit l = some pr) : pr.2.length ≤ l.length := by
  induction l generalizing pr with
  | nil => simp [takeUntilLit] at h
  | cons c cs ih =>
    simp only [takeUntilLit] at h
    split at h
    · next heq =>
      cases h
      exact dropLitExact_length heq
    · split at h
      · next body rest heq =>
        cases h
        have hb := ih heq
        exact Nat.le_trans hb (Nat.le_succ _)
      · exact absurd h (by simp)

theorem tryMethod_length {l : List Char} {pr : String × List Char}
    (h : tryMethod l = some pr) : pr.2.length ≤ l.length := by
  simp only [tryMethod] at h
  split at h
  · next heq => cases h; exact dropLitCI_length heq
  · split at h
    · next heq => cases h; exact dropLitCI_length heq
    · split at h
      · next heq => cases h; exact dropLitCI_length heq
      · split at h
        · next heq => cases h; exact dropLitCI_length heq
        · exact absurd h (by simp)

theorem tryMatchFK_length {l : List Char} {pr : Relationship × List Char}
    (h : tryMatchFK l = some pr) : pr.2.length < l.length := by
  simp only [tryMatchFK, Option.bind_eq_some] at h
  obtain ⟨l1, h1, l2, h2, l3, h3, l4, h4, cap1, h5, l6, h6, l7, h7,
    l8, h8, l9, h9, cap2, h10, l11, h11, cap3, h12, l13, h13, hfin⟩ := h
  simp only [Option.some.injEq] at hfin
  have hr : l13 = pr.2 := by rw [← hfin]
  subst hr
  have e1 := dropLitCI_length_lt (by decide) h1
  have e2 := dropWS1_length h2
  have e3 := dropLitCI_length h3
  have e4 := Nat.le_trans (dropCharExact_length h4) (dropWSMany_length l3)
  have e5 := takeWhile1_length h5
  have e6 := dropCharExact_length h6
  have e7 := dropWS1_length h7
  have e8 := dropLitCI_length h8
  have e9 := dropWS1_length h9
  have e10 := takeWord1_length h10
  have e11 := Nat.le_trans (dropCharExact_length h11) (dropWSMany_length cap2.2)
  have e12 := takeWhile1_length h12
  have e13 := dropCharExact_length h13
  omega

theorem tryMatchCreate_length {l : List Char} {pr : Table × List Char}
    (h : tryMatchCreate l = some pr) : pr.2.length < l.length := by
  simp only [tryMatchCreate, Option.bind_eq_some] at h
  obtain ⟨l1, h1, l2, h2, l3, h3, l4, h4, cap1, h5, l6, h6, cap2, h7, hfin⟩ := h
  simp only [Option.some.injEq] at hfin
  have hr : cap2.2 = pr.2 := by rw [← hfin]
  rw [← hr]
  have e1 := dropLitCI_length_lt (by decide) h1
  have e2 := dropWS1_length h2
  have e3 := dropLitCI_length h3
  have e4 := dropWS1_length h4
  have e5 := takeWord1_length h5
  have e6 := Nat.le_trans (dropCharExact_length h6) (dropWSMany_length cap1.2)
  have e7 := takeUntilLit_length h7
  omega

theorem tryMatchCreate2_length {l : List Char} {pr : STable × List Char}
    (h : tryMatchCreate2 l = some pr) : pr.2.length < l.length := by
  simp only [tryMatchCreate2, Option.bind_eq_some] at h
  obtain ⟨l1, h1, cap1, h2, l3, h3, cap2, h4, hfin⟩ := h
  simp only [Option.some.injEq] at hfin
  have hr : cap2.2 = pr.2 := by rw [← hfin]
  rw [← hr]
  have e1 := dropLitCI_length_lt (by decide) h1
  have e2 := takeWord1_length h2
  have e3 := Nat.le_trans (dropCharExact_length h3) (dropWSMany_length cap1.2)
  have e4 := takeUntilLit_length h4
  omega

theorem tryMatchEndpoint_length {l : List Char} {pr : Endpoint × List Char}
    (h : tryMatchEndpoint l = some pr) : pr.2.length < l.length := by
  simp only [tryMatchEndpoint, Option.bind_eq_some] at h
  obtain ⟨l1, h1, cap1, h2, l3, h3, l4, h4, cap2, h5, l6, h6, hfin⟩ := h
  simp only [Option.some.injEq] at hfin
  have hr : l6 = pr.2 := by rw [← hfin]
  subst hr
  have e1 := dropLitCI_length_lt (by decide) h1
  have e2 := tryMethod_length h2
  have e3 := Nat.le_trans (dropCharExact_length h3) (dropWSMany_length cap1.2)
  have e4 := Nat.le_trans (dropQuote_length h4).le (dropWSMany_length l3)
  have e5 := takeWhile1_length h5
  have e6 := dropQuote_length h6
  omega

/-! ### Small String lemmas -/

theorem strDataAppend (s t : String) : (s ++ t).data = s.data ++ t.data := by
  obtain ⟨a⟩ := s
  obtain ⟨b⟩ := t
  rfl

theorem strMkData (s : String) : String.mk s.data = s := by
  obtain ⟨a⟩ := s
  rfl

theorem strNeEmpty {s : String} (h : s.data ≠ []) : s ≠ "" := by
  intro he
  apply h
  rw [he]

/-! ### Fuel stability: every scanner computes the same result for any fuel
at least the input length, so the scans complete for every input (the
termination half of the never-fails contract). -/

theorem scanFKAux_congr : ∀ (n : Nat) (l : List Char), l.length ≤ n →
    ∀ f₁ f₂, l.length ≤ f₁ → l.length ≤ f₂ → scanFKAux f₁ l = scanFKAux f₂ l := by
  intro n
  induction n with
  | zero =>
    intro l hl f₁ f₂ _ _
    have he : l = [] := List.length_eq_zero.mp (Nat.le_zero.mp hl)
    subst he
    cases f₁ <;> cases f₂ <;> rfl
  | succ n ih =>
    intro l hl f₁ f₂ h1 h2
    cases l with
    | nil => cases f₁ <;> cases f₂ <;> rfl
    | cons c cs =>
      simp only [List.length_cons] at hl h1 h2
      cases f₁ with
      | zero => omega
      | succ g₁ =>
        cases f₂ with
        | zero => omega
        | succ g₂ =>
          simp only [scanFKAux]
          cases hm : tryMatchFK (c :: cs) with
          | none => exact ih cs (by omega) g₁ g₂ (by omega) (by omega)
          | some pr =>
            obtain ⟨r, rest⟩ := pr
            have hlen : rest.length < cs.length + 1 := tryMatchFK_length hm
            have hrec := ih rest (by omega) g₁ g₂ (by omega) (by omega)
            show r :: scanFKAux g₁ rest = r :: scanFKAux g₂ rest
            rw [hrec]

theorem scanTablesAux_congr : ∀ (n : Nat) (l : List Char), l.length ≤ n →
    ∀ f₁ f₂, l.length ≤ f₁ → l.length ≤ f₂ →
    scanTablesAux f₁ l = scanTablesAux f₂ l := by
  intro n
  induction n with
  | zero =>
    intro l hl f₁ f₂ _ _
    have he : l = [] := List.length_eq_zero.mp (Nat.le_zero.mp hl)
    subst he
    cases f₁ <;> cases f₂ <;> rfl
  | succ n ih =>
    intro l hl f₁ f₂ h1 h2
    cases l with
    | nil => cases f₁ <;> cases f₂ <;> rfl
    | cons c cs =>
      simp only [List.length_cons] at hl h1 h2
      cases f₁ with
      | zero => omega
      | succ g₁ =>
        cases f₂ with
        | zero => omega
        | succ g₂ =>
          simp only [scanTablesAux]
          cases hm : tryMatchCreate (c :: cs) with
          | none => exact ih cs (by omega) g₁ g₂ (by omega) (by omega)
          | some pr =>
            obtain ⟨r, rest⟩ := pr
            have hlen : rest.length < cs.length + 1 := tryMatchCreate_length hm
            have hrec := ih rest (by omega) g₁ g₂ (by omega) (by omega)
            show r :: scanTablesAux g₁ rest = r :: scanTablesAux g₂ rest
            rw [hrec]

theorem scanTables2Aux_congr : ∀ (n : Nat) (l : List Char), l.length ≤ n →
    ∀ f₁ f₂, l.length ≤ f₁ → l.length ≤ f₂ →
    scanTables2Aux f₁ l = scanTables2Aux f₂ l := by
  intro n
  induction n with
  | zero =>
    intro l hl f₁ f₂ _ _
    have he : l = [] := List.length_eq_zero.mp (Nat.le_zero.mp hl)
    subst he
    cases f₁ <;> cases f₂ <;> rfl
  | succ n ih =>
    intro l hl f₁ f₂ h1 h2
    cases l with
    | nil => cases f₁ <;> cases f₂ <;> rfl
    | cons c cs =>
      simp only [List.length_cons] at hl h1 h2
      cases f₁ with
      | zero => omega
      | succ g₁ =>
        cases f₂ with
        | zero => omega
        | succ g₂ =>
          simp only [scanTables2Aux]
          cases hm : tryMatchCreate2 (c :: cs) with
          | none => exact ih cs (by omega) g₁ g₂ (by omega) (by omega)
          | some pr =>
            obtain ⟨r, rest⟩ := pr
            have hlen : rest.length < cs.length + 1 := tryMatchCreate2_length hm
            have hrec := ih rest (by omega) g₁ g₂ (by omega) (by omega)
            show r :: scanTables2Aux g₁ rest = r :: scanTables2Aux g₂ rest
            rw [hrec]

theorem scanEndpointsAux_congr : ∀ (n : Nat) (l : List Char), l.length ≤ n →
    ∀ f₁ f₂, l.length ≤ f₁ → l.length ≤ f₂ →
    scanEndpointsAux f₁ l = scanEndpointsAux f₂ l := by
  intro n
  induction n with
  | zero =>
    intro l hl f₁ f₂ _ _
    have he : l = [] := List.length_eq_zero.mp (Nat.le_zero.mp hl)
    subst he
    cases f₁ <;> cases f₂ <;> rfl
  | succ n ih =>
    intro l hl f₁ f₂ h1 h2
    cases l with
    | nil => cases f₁ <;> cases f₂ <;> rfl
    | cons c cs =>
      simp only [List.length_cons] at hl h1 h2
      cases f₁ with
      | zero => omega
      | succ g₁ =>
        cases f₂ with
        | zero => omega
        | succ g₂ =>
          simp only [scanEndpointsAux]
          cases hm : tryMatchEndpoint (c :: cs) with
          | none => exact ih cs (by omega) g₁ g₂ (by omega) (by omega)
          | some pr =>
            obtain ⟨r, rest⟩ := pr
            have hlen : rest.length < cs.length + 1 := tryMatchEndpoint_length hm
            have hrec := ih rest (by omega) g₁ g₂ (by omega) (by omega)
            show r :: scanEndpointsAux g₁ rest = r :: scanEndpointsAux g₂ rest
            rw [hrec]

theorem findColMatchAux_congr : ∀ (l : List Char) (f₁ f₂ : Nat),
    l.length ≤ f₁ → l.length ≤ f₂ →
    findColMatchAux f₁ l = findColMatchAux f₂ l := by
  intro l
  induction l with
  | nil => intro f₁ f₂ _ _; cases f₁ <;> cases f₂ <;> rfl
  | cons c cs ih =>
    intro f₁ f₂ h1 h2
    simp only [List.length_cons] at h1 h2
    cases f₁ with
    | zero => omega
    | succ g₁ =>
      cases f₂ with
      | zero => omega
      | succ g₂ =>
        simp only [findColMatchAux]
        cases hm : tryMatchCol (c :: cs) with
        | none => exact ih g₁ g₂ (by omega) (by omega)
        | some col => rfl

theorem wsTokensAux_congr : ∀ (n : Nat) (l : List Char), l.length ≤ n →
    ∀ f₁ f₂, l.length ≤ f₁ → l.length ≤ f₂ →
    wsTokensAux f₁ l = wsTokensAux f₂ l := by
  intro n
  induction n with
  | zero =>
    intro l hl f₁ f₂ _ _
    have he : l = [] := List.length_eq_zero.mp (Nat.le_zero.mp hl)
    subst he
    cases f₁ <;> cases f₂ <;> rfl
  | succ n ih =>
    intro l hl f₁ f₂ h1 h2
    cases l with
    | nil => cases f₁ <;> cases f₂ <;> rfl
    | cons c cs =>
      simp only [List.length_cons] at hl h1 h2
      cases f₁ with
      | zero => omega
      | succ g₁ =>
        cases f₂ with
        | zero => omega
        | succ g₂ =>
          simp only [wsTokensAux]
          have hd := length_dropWhile_le (fun d => !isSpaceChar d) cs
          cases hsp : isSpaceChar c with
          | true =>
            simp only [hsp, if_true]
            exact ih cs (by omega) g₁ g₂ (by omega) (by omega)
          | false =>
            simp only [hsp, Bool.false_eq_true, if_false]
            have hrec := ih (cs.dropWhile (fun d => !isSpaceChar d)) (by omega)
              g₁ g₂ (by omega) (by omega)
            rw [hrec]

/-! ### Polling-loop lemmas -/

/-- A status response that is neither `completed` nor `failed` (a transport
throw also leaves the loop running, see the `catch` block). -/
def nonTerminalStatus : StatusResp → Bool
  | .throws => true
  | .ok s _ => !(s == "completed") && !(s == "failed")

theorem runPoll_cleared {st : ClientState} (h : st.cleared = true) :
    ∀ ts, runPoll st ts = (st, []) := by
  intro ts
  induction ts with
  | nil => rfl
  | cons t ts ih =>
    simp [runPoll, tick, h, ih]

theorem tick_nonTerminal {st : ClientState} {sr : StatusResp} (rr : ResultResp)
    (hc : st.cleared = false) (hnt : nonTerminalStatus sr = true) :
    ∃ st', tick st sr rr = (st', [NetEvent.statusFetch]) ∧ st'.cleared = false := by
  cases sr with
  | throws =>
    refine ⟨{ st with error := some connErrMsg }, ?_, ?_⟩
    · simp [tick, hc]
    · simp [hc]
  | ok s e =>
    simp only [nonTerminalStatus, Bool.and_eq_true, Bool.not_eq_true',
      beq_eq_false_iff_ne, ne_eq] at hnt
    refine ⟨st, ?_, hc⟩
    simp [tick, hc, hnt.1, hnt.2]

theorem tick_completed {st : ClientState} (e : Option String) (res : String)
    (hc : st.cleared = false) :
    tick st (.ok "completed" e) (.ok res) =
      (⟨true, none, some res⟩, [NetEvent.statusFetch, NetEvent.resultFetch]) := by
  simp [tick, hc]

theorem tick_notCleared_head {st : ClientState} (sr : StatusResp)
    (rr : ResultResp) (hc : st.cleared = false) :
    ((tick st sr rr).2).head? = some NetEvent.statusFetch := by
  cases sr with
  | throws => simp [tick, hc]
  | ok s e =>
    cases rr with
    | throws =>
      by_cases h1 : s = "completed"
      · simp [tick, hc, h1]
      · by_cases h2 : s = "failed"
        · simp [tick, hc, h1, h2]
        · simp [tick, hc, h1, h2]
    | ok r =>
      by_cases h1 : s = "completed"
      · simp [tick, hc, h1]
      · by_cases h2 : s = "failed"
        · simp [tick, hc, h1, h2]
        · simp [tick, hc, h1, h2]

/-- C7, general form: any run whose status observations before the terminal
one are non-terminal (transport throws allowed, since they do not stop the
loop) and whose terminal observation is `completed` with a successful result
fetch issues exactly `pre.length + 1` status fetches followed by exactly one
result fetch, and nothing afterwards. -/
theorem runPoll_completed_events :
    ∀ (pre : List (StatusResp × ResultResp)) (st : ClientState),
    st.cleared = false →
    (∀ t ∈ pre, nonTerminalStatus t.1 = true) →
    ∀ (e : Option String) (res : String) (rest : List (StatusResp × ResultResp)),
    (runPoll st (pre ++ (StatusResp.ok "completed" e, ResultResp.ok res) :: rest)).2
      = List.replicate (pre.length + 1) NetEvent.statusFetch ++ [NetEvent.resultFetch] ∧
    (runPoll st (pre ++ (StatusResp.ok "completed" e, ResultResp.ok res) :: rest)).1.cleared
      = true := by
  intro pre
  induction pre with
  | nil =>
    intro st hc _ e res rest
    simp only [List.nil_append, runPoll, tick_completed e res hc,
      runPoll_cleared (show (⟨true, none, some res⟩ : ClientState).cleared = true from rfl) rest]
    simp
  | cons t pre ih =>
    intro st hc hnt e res rest
    obtain ⟨st', hts, hc'⟩ := tick_nonTerminal t.2 hc (hnt t (by simp))
    have ihres := ih st' hc' (fun u hu => hnt u (by simp [hu])) e res rest
    simp only [List.cons_append, runPoll, hts]
    refine ⟨?_, ihres.2⟩
    simp only [List.nil_append, List.append_eq]
    rw [ihres.1]
    simp [List.replicate_succ]

/-! ### Skip lemmas for the foreign-key scan -/

theorem tryMatchFK_noF {c : Char} (cs : List Char) (hc : c.toUpper ≠ 'F') :
    tryMatchFK (c :: cs) = none := by
  have hdrop : dropLitCI "FOREIGN".data (c :: cs) = none := by
    show dropLitCI ('F' :: "OREIGN".data) (c :: cs) = none
    simp only [dropLitCI]
    rw [if_neg hc]
  unfold tryMatchFK
  rw [hdrop]
  rfl

theorem scanFKAux_skip : ∀ (pre : List Char), (∀ c ∈ pre, c.toUpper ≠ 'F') →
    ∀ (n : Nat) (l : List Char),
    scanFKAux (pre.length + n) (pre ++ l) = scanFKAux n l := by
  intro pre
  induction pre with
  | nil => intro _ n l; simp
  | cons c cs ih =>
    intro h n l
    have hc : c.toUpper ≠ 'F' := h c (by simp)
    have hnone : tryMatchFK (c :: (cs ++ l)) = none := tryMatchFK_noF (cs ++ l) hc
    have hfuel : (c :: cs).length + n = (cs.length + n) + 1 := by
      simp only [List.length_cons]; omega
    rw [List.cons_append, hfuel]
    simp only [scanFKAux, hnone]
    exact ih (fun d hd => h d (by simp [hd])) n l

theorem scanFKAux_noMatch : ∀ (l : List Char), (∀ c ∈ l, c.toUpper ≠ 'F') →
    ∀ f, scanFKAux f l = [] := by
  intro l
  induction l with
  | nil => intro _ f; cases f <;> rfl
  | cons c cs ih =>
    intro h f
    cases f with
    | zero => rfl
    | succ g =>
      have hnone : tryMatchFK (c :: cs) = none := tryMatchFK_noF cs (h c (by simp))
      simp only [scanFKAux, hnone]
      exact ih (fun d hd => h d (by simp [hd])) g

theorem scanFKAux_clause (post : List Char) (hpost : ∀ c ∈ post, c.toUpper ≠ 'F') :
    ∀ n, scanFKAux (n + 1)
      ("FOREIGN KEY (customer_id) REFERENCES customers(customer_id)".data ++ post) =
      [⟨"customer_id", "customers", "customer_id"⟩] := by
  intro n
  have hstep : scanFKAux (n + 1)
      ("FOREIGN KEY (customer_id) REFERENCES customers(customer_id)".data ++ post) =
      (⟨"customer_id", "customers", "customer_id"⟩ : Relationship) :: scanFKAux n post := rfl
  rw [hstep, scanFKAux_noMatch post hpost n]

/-! ### Append lemmas for the endpoint path capture -/

theorem takeWhile_all_append_neg {p : Char → Bool} {xs : List Char} {y : Char}
    {ys : List Char} (hall : ∀ c ∈ xs, p c = true) (hy : p y = false) :
    (xs ++ y :: ys).takeWhile p = xs ∧ (xs ++ y :: ys).dropWhile p = y :: ys := by
  induction xs with
  | nil =>
    constructor
    · simp [List.takeWhile_cons, hy]
    · simp [List.dropWhile_cons, hy]
  | cons a as ih =>
    have ha : p a = true := hall a (by simp)
    have ihh := ih (fun c hc => hall c (by simp [hc]))
    constructor
    · simp [List.takeWhile_cons, ha, ihh.1]
    · simp [List.dropWhile_cons, ha, ihh.2]

theorem takeWhile1_path (p : String) (hpd : p.data ≠ [])
    (hq : ∀ c ∈ p.data, isQuoteChar c = false) :
    takeWhile1 (fun c => !isQuoteChar c) (p.data ++ ['"', ')']) =
      some (p.data, ['"', ')']) := by
  cases hd : p.data with
  | nil => exact absurd hd hpd
  | cons c0 cs0 =>
    have hc0 : isQuoteChar c0 = false := hq c0 (by rw [hd]; simp)
    have hall : ∀ c ∈ cs0, (fun c => !isQuoteChar c) c = true := by
      intro c hc
      have hcq := hq c (by rw [hd]; simp [hc])
      simp [hcq]
    have hpair := @takeWhile_all_append_neg (fun c => !isQuoteChar c) cs0 '"' [')']
      hall (by decide)
    show takeWhile1 (fun c => !isQuoteChar c) (c0 :: (cs0 ++ ['"', ')'])) =
      some (c0 :: cs0, ['"', ')'])
    simp only [takeWhile1]
    rw [if_pos (by simp [hc0]), hpair.1, hpair.2]

theorem scanEndpointsAux_nil : ∀ f, scanEndpointsAux f [] = [] := by
  intro f; cases f <;> rfl

theorem scanEndpointsAux_rpar : ∀ f, scanEndpointsAux f [')'] = [] := by
  intro f
  cases f with
  | zero => rfl
  | succ g =>
    have hnone : tryMatchEndpoint [')'] = none := rfl
    simp only [scanEndpointsAux, hnone]
    exact scanEndpointsAux_nil g

/-- Core of claim C5: a route text consisting of exactly one recognized call
pattern (identifier `app`, method segment `mtail` accepted by `tryMethod` as
`mU`, double-quoted non-empty quote-free path `p`) extracts to exactly the
one corresponding endpoint. -/
theorem parseAPI_one (s mU : String) (mtail : List Char) (p : String)
    (hdata : s.data = 'a' :: 'p' :: 'p' :: '.' :: (mtail ++ ('(' :: '"' :: (p.data ++ ['"', ')']))))
    (hpd : p.data ≠ []) (hq : ∀ c ∈ p.data, isQuoteChar c = false)
    (hmeth : ∀ t, tryMethod (mtail ++ t) = some (mU, t)) :
    parseAPIEndpoints (some s) =
      [⟨mU, p, mU ++ " endpoint for " ++ p, [], "JSON response"⟩] := by
  have hs : s ≠ "" := strNeEmpty (by rw [hdata]; simp)
  have h1 : tryMatchEndpoint ('a' :: 'p' :: 'p' :: '.' :: (mtail ++ ('(' :: '"' :: (p.data ++ ['"', ')'])))) =
      (tryMethod (mtail ++ ('(' :: '"' :: (p.data ++ ['"', ')'])))).bind (fun cap1 =>
        (dropCharExact '(' (dropWSMany cap1.2)).bind fun l3 =>
        (dropQuote (dropWSMany l3)).bind fun l4 =>
        (takeWhile1 (fun c => !isQuoteChar c) l4).bind fun cap2 =>
        (dropQuote cap2.2).bind fun l6 =>
        some (⟨cap1.1, String.mk cap2.1,
              cap1.1 ++ " endpoint for " ++ String.mk cap2.1, [],
              "JSON response"⟩, l6)) := rfl
  have htm : tryMatchEndpoint ('a' :: 'p' :: 'p' :: '.' :: (mtail ++ ('(' :: '"' :: (p.data ++ ['"', ')'])))) =
      some (⟨mU, p, mU ++ " endpoint for " ++ p, [], "JSON response"⟩, [')']) := by
    rw [h1, hmeth]
    show (takeWhile1 (fun c => !isQuoteChar c) (p.data ++ ['"', ')'])).bind (fun cap2 =>
        (dropQuote cap2.2).bind fun l6 =>
        some ((⟨mU, String.mk cap2.1, mU ++ " endpoint for " ++ String.mk cap2.1, [],
              "JSON response"⟩ : Endpoint), l6)) =
      some ((⟨mU, p, mU ++ " endpoint for " ++ p, [], "JSON response"⟩ : Endpoint), [')'])
    rw [takeWhile1_path p hpd hq]
    rfl
  have hscan : scanEndpointsAux s.data.length s.data =
      [⟨mU, p, mU ++ " endpoint for " ++ p, [], "JSON response"⟩] := by
    rw [hdata]
    show scanEndpointsAux
      ((mtail ++ ('(' :: '"' :: (p.data ++ ['"', ')']))).length + 3 + 1)
      ('a' :: 'p' :: 'p' :: '.' :: (mtail ++ ('(' :: '"' :: (p.data ++ ['"', ')'])))) = _
    have hrp : tryMatchEndpoint [')'] = none := rfl
    simp only [scanEndpointsAux, htm, hrp, scanEndpointsAux_nil]
  show (if s = "" then [] else
      let endpoints := scanEndpointsAux s.data.length s.data
      if endpoints.isEmpty then fallbackEndpoints else endpoints) = _
  rw [if_neg hs]
  show (if (scanEndpointsAux s.data.length s.data).isEmpty then fallbackEndpoints
      else scanEndpointsAux s.data.length s.data) = _
  rw [hscan]
  rfl

/-! ## Claim theorems -/

/-- Claim C1, counterexample: `parseAPIEndpoints` on the empty route text and
on a missing route text field returns the empty sequence (the `!apiCode`
guard fires on both), not the 3-element fallback sequence the claim
requires for every zero-match input. -/
theorem claim_C1_counterexample :
    parseAPIEndpoints (some "") = [] ∧ parseAPIEndpoints none = [] ∧
    fallbackEndpoints.length = 3 := by
  exact ⟨rfl, rfl, rfl⟩

/-- Claim C1, amended: for every NON-empty route-source string in which the
scan recognizes zero call patterns, the extractor returns exactly the fixed
3-element fallback sequence (GET /api/data, GET /api/data/:id,
POST /api/data); the empty string and the missing field instead yield the
empty sequence. -/
theorem claim_C1_fallback (s : String) (hne : s ≠ "")
    (hnone : scanEndpointsAux s.data.length s.data = []) :
    parseAPIEndpoints (some s) = fallbackEndpoints ∧
    fallbackEndpoints.length = 3 ∧
    fallbackEndpoints.map (fun e => (e.method, e.path)) =
      [("GET", "/api/data"), ("GET", "/api/data/:id"), ("POST", "/api/data")] ∧
    parseAPIEndpoints (some "") = [] ∧ parseAPIEndpoints none = [] := by
  refine ⟨?_, rfl, rfl, rfl, rfl⟩
  show (if s = "" then [] else
    let endpoints := scanEndpointsAux s.data.length s.data
    if endpoints.isEmpty then fallbackEndpoints else endpoints) = fallbackEndpoints
  rw [if_neg hne]
  show (if (scanEndpointsAux s.data.length s.data).isEmpty then fallbackEndpoints
    else scanEndpointsAux s.data.length s.data) = fallbackEndpoints
  rw [hnone]
  rfl

/-- Witness for C1's amended theorem at the concrete zero-match input
`"hello"`. -/
theorem claim_C1_fallback_witness :
    (("hello" : String) ≠ "" ∧
      scanEndpointsAux "hello".data.length "hello".data = []) ∧
    parseAPIEndpoints (some "hello") = fallbackEndpoints :=
  ⟨⟨by decide, by decide⟩, (claim_C1_fallback "hello" (by decide) (by decide)).1⟩

/-- Claim C2, counterexample: a throwing status call stores the
connection-error message but does not clear the interval, and the very next
tick issues another status fetch — the claimed halt of polling does not
happen. -/
theorem claim_C2_counterexample :
    (runPoll initClient [(StatusResp.throws, ResultResp.ok "r"),
        (StatusResp.ok "queued" none, ResultResp.ok "r")]).2
      = [NetEvent.statusFetch, NetEvent.statusFetch] ∧
    (runPoll initClient [(StatusResp.throws, ResultResp.ok "r")]).1.error
      = some connErrMsg ∧
    (runPoll initClient [(StatusResp.throws, ResultResp.ok "r")]).1.cleared
      = false := by
  exact ⟨rfl, rfl, rfl⟩

/-- Claim C2, amended: when a network call of a poll tick throws — the
status fetch itself, or the result fetch issued after a `completed` status —
the client stores the connection-error message, but the interval is NOT
cleared and polling is NOT halted: the next tick still issues a status fetch
(the transport error is effectively retried on the next tick). -/
theorem claim_C2_transport_error_keeps_polling (st : ClientState)
    (e : Option String) (rr rr' : ResultResp) (sr' : StatusResp)
    (hc : st.cleared = false) :
    ((tick st .throws rr).1.error = some connErrMsg ∧
     (tick st .throws rr).1.cleared = false ∧
     (tick st .throws rr).2 = [NetEvent.statusFetch] ∧
     ((tick (tick st .throws rr).1 sr' rr').2).head? = some NetEvent.statusFetch) ∧
    ((tick st (.ok "completed" e) .throws).1.error = some connErrMsg ∧
     (tick st (.ok "completed" e) .throws).1.cleared = false ∧
     (tick st (.ok "completed" e) .throws).2
        = [NetEvent.statusFetch, NetEvent.resultFetch] ∧
     ((tick (tick st (.ok "completed" e) .throws).1 sr' rr').2).head?
        = some NetEvent.statusFetch) := by
  have h1 : tick st .throws rr =
      ({ st with error := some connErrMsg }, [NetEvent.statusFetch]) := by
    simp [tick, hc]
  have h2 : (tick st .throws rr).1.cleared = false := by
    rw [h1]; exact hc
  have h3 : tick st (.ok "completed" e) .throws =
      ({ st with error := some connErrMsg },
       [NetEvent.statusFetch, NetEvent.resultFetch]) := by
    simp [tick, hc]
  have h4 : (tick st (.ok "completed" e) .throws).1.cleared = false := by
    rw [h3]; exact hc
  exact ⟨⟨by rw [h1], h2, by rw [h1], tick_notCleared_head sr' rr' h2⟩,
         ⟨by rw [h3], h4, by rw [h3], tick_notCleared_head sr' rr' h4⟩⟩

/-- Witness for the amended C2 at a concrete throwing status tick and a
concrete completed tick whose result fetch throws, each followed by a
`queued` tick. -/
theorem claim_C2_transport_error_keeps_polling_witness :
    initClient.cleared = false ∧
    (tick initClient .throws (ResultResp.ok "r")).1.error = some connErrMsg ∧
    ((tick (tick initClient .throws (ResultResp.ok "r")).1
        (StatusResp.ok "queued" none) (ResultResp.ok "r")).2).head?
      = some NetEvent.statusFetch ∧
    (tick initClient (.ok "completed" none) .throws).2
      = [NetEvent.statusFetch, NetEvent.resultFetch] ∧
    (tick initClient (.ok "completed" none) .throws).1.error = some connErrMsg ∧
    ((tick (tick initClient (.ok "completed" none) .throws).1
        (StatusResp.ok "queued" none) (ResultResp.ok "r")).2).head?
      = some NetEvent.statusFetch := by
  have h := claim_C2_transport_error_keeps_polling initClient none
    (ResultResp.ok "r") (ResultResp.ok "r") (StatusResp.ok "queued" none) rfl
  exact ⟨rfl, h.1.1, h.1.2.2.2, h.2.2.2.1, h.2.1, h.2.2.2.2⟩

/-- Claim C3: parsing `CREATE TABLE t (a INT PRIMARY KEY, b VARCHAR(10) NOT
NULL);` yields exactly one table named `t` with two columns in declaration
order, the first with `isPrimary = true`, the second with
`isNotNull = true` — for both the `parseSQLTables` parser and the
`parseSchemaFromSQL` parser. -/
theorem claim_C3_create_table_shape :
    parseSQLTables "CREATE TABLE t (a INT PRIMARY KEY, b VARCHAR(10) NOT NULL);" =
      [⟨"t", [⟨"a", "INT", true, false, false, false⟩,
              ⟨"b", "VARCHAR(10)", false, true, false, false⟩], []⟩] ∧
    parseSchemaFromSQL
        (some "CREATE TABLE t (a INT PRIMARY KEY, b VARCHAR(10) NOT NULL);") =
      [⟨"t", [⟨"a", "INT", true, false⟩, ⟨"b", "VARCHAR(10)", false, true⟩], []⟩] := by
  exact ⟨by decide, by decide⟩

set_option maxRecDepth 8000 in
/-- Claim C4, counterexample: on the two-block scenario DDL the assembler
parser `parseSchemaFromSQL` does produce two tables, but both relationship
sequences are empty (the source hard-codes `relationships: []`), so the
second table has no relationship whose `toTable` equals the first table
name. -/
theorem claim_C4_counterexample :
    (parseSchemaFromSQL (some twoTableSQL)).length = 2 ∧
    (parseSchemaFromSQL (some twoTableSQL)).map STable.relationships = [[], []] := by
  exact ⟨by decide, by decide⟩

set_option maxRecDepth 8000 in
/-- Claim C4, amended: for every DDL body of the form
`pre ++ "FOREIGN KEY (customer_id) REFERENCES customers(customer_id)" ++ post`
in which the surrounding text contains no letter F (so no other foreign-key
clause), the DDL parser `findRelationships` used by `parseSQLTables` yields
exactly one relationship with those three fields, however many columns
precede the clause; in the two-block scenario, `parseSQLTables` places that
relationship on the second table with `toTable` equal to the first table
name, while the assembler `parseSchemaFromSQL` yields two tables whose
relationship sequences are both empty. -/
theorem claim_C4_foreign_key (pre post : List Char)
    (hpre : ∀ c ∈ pre, c.toUpper ≠ 'F') (hpost : ∀ c ∈ post, c.toUpper ≠ 'F') :
    findRelationships (String.mk (pre ++
        ("FOREIGN KEY (customer_id) REFERENCES customers(customer_id)".data ++ post)))
      = [⟨"customer_id", "customers", "customer_id"⟩] ∧
    parseSQLTables twoTableSQL =
      [⟨"customers", [⟨"customer_id", "INT", true, false, false, false⟩], []⟩,
       ⟨"orders", [⟨"order_id", "INT", true, false, false, false⟩,
                   ⟨"customer_id", "INT", false, false, false, false⟩],
        [⟨"customer_id", "customers", "customer_id"⟩]⟩] ∧
    (parseSchemaFromSQL (some twoTableSQL)).map STable.relationships = [[], []] := by
  refine ⟨?_, by decide, by decide⟩
  show scanFKAux
    (pre ++ ("FOREIGN KEY (customer_id) REFERENCES customers(customer_id)".data ++ post)).length
    (pre ++ ("FOREIGN KEY (customer_id) REFERENCES customers(customer_id)".data ++ post))
    = [⟨"customer_id", "customers", "customer_id"⟩]
  have h59 : ("FOREIGN KEY (customer_id) REFERENCES customers(customer_id)".data ++ post).length
      = 58 + post.length + 1 := by
    rw [List.length_append]
    have hc : ("FOREIGN KEY (customer_id) REFERENCES customers(customer_id)".data).length = 59 := rfl
    rw [hc]
    omega
  rw [List.length_append, h59,
    scanFKAux_skip pre hpre (58 + post.length + 1)
      ("FOREIGN KEY (customer_id) REFERENCES customers(customer_id)".data ++ post)]
  exact scanFKAux_clause post hpost (58 + post.length)

/-- Witness for the amended C4 at a concrete two-column prefix and empty
suffix. -/
theorem claim_C4_foreign_key_witness :
    (∀ c ∈ "order_id INT PRIMARY KEY, customer_id INT, ".data, c.toUpper ≠ 'F') ∧
    findRelationships (String.mk ("order_id INT PRIMARY KEY, customer_id INT, ".data ++
        ("FOREIGN KEY (customer_id) REFERENCES customers(customer_id)".data ++ ([] : List Char))))
      = [⟨"customer_id", "customers", "customer_id"⟩] :=
  ⟨by decide,
    (claim_C4_foreign_key "order_id INT PRIMARY KEY, customer_id INT, ".data []
      (by decide) (by decide)).1⟩

/-- Claim C5, counterexample: the endpoint regex recognizes only the
identifier `app` and only the methods get/post/put/delete — `app.patch` and
`router.get` produce no match, so the extractor falls back to the generic
3-endpoint list, which contains neither a PATCH method nor the path written
in the call. -/
theorem claim_C5_counterexample :
    parseAPIEndpoints (some "app.patch(\"/x\")") = fallbackEndpoints ∧
    parseAPIEndpoints (some "router.get(\"/x\")") = fallbackEndpoints ∧
    (fallbackEndpoints.all fun e => !(e.method == "PATCH") && !(e.path == "/x")) = true := by
  exact ⟨by decide, by decide, by decide⟩

/-- Claim C5, amended: for a call pattern with identifier `app` and method
token in get/post/put/delete (patch is NOT recognized, nor any identifier
other than `app`), the extractor yields an Endpoint whose method is the
upper-cased token, whose path is the quoted literal verbatim, whose
description is `<METHOD> endpoint for <path>`, whose parameters are empty,
and whose response is `JSON response`. -/
theorem claim_C5_endpoint_pattern (m p : String)
    (hm : m ∈ (["get", "post", "put", "delete"] : List String))
    (hne : p ≠ "") (hq : ∀ c ∈ p.data, isQuoteChar c = false) :
    parseAPIEndpoints (some ("app." ++ m ++ "(\"" ++ p ++ "\")")) =
      [⟨upperStr m, p, upperStr m ++ " endpoint for " ++ p, [], "JSON response"⟩] := by
  have hpd : p.data ≠ [] := by
    intro hnil
    apply hne
    rw [← strMkData p, hnil]
  simp only [List.mem_cons, List.not_mem_nil, or_false] at hm
  rcases hm with rfl | rfl | rfl | rfl
  · exact parseAPI_one _ "GET" ['g', 'e', 't'] p rfl hpd hq (fun t => rfl)
  · exact parseAPI_one _ "POST" ['p', 'o', 's', 't'] p rfl hpd hq (fun t => rfl)
  · exact parseAPI_one _ "PUT" ['p', 'u', 't'] p rfl hpd hq (fun t => rfl)
  · exact parseAPI_one _ "DELETE" ['d', 'e', 'l', 'e', 't', 'e'] p rfl hpd hq (fun t => rfl)

/-- Witness for the amended C5 at the concrete pattern
`app.put("/api/users")`. -/
theorem claim_C5_endpoint_pattern_witness :
    (("put" : String) ∈ (["get", "post", "put", "delete"] : List String) ∧
      ("/api/users" : String) ≠ "" ∧
      (∀ c ∈ ("/api/users" : String).data, isQuoteChar c = false)) ∧
    parseAPIEndpoints (some ("app." ++ "put" ++ "(\"" ++ "/api/users" ++ "\")")) =
      [⟨upperStr "put", "/api/users",
        upperStr "put" ++ " endpoint for " ++ "/api/users", [], "JSON response"⟩] :=
  ⟨⟨by decide, by decide, by decide⟩,
    claim_C5_endpoint_pattern "put" "/api/users" (by decide) (by decide) (by decide)⟩

/-- Claim C6: the DDL parsers terminate normally on every input string: each
fuel-indexed scanner has already stabilized at fuel = input length (extra
fuel never changes the result), so the total functions `parseSQLTables`,
`findRelationships`, `parseSchemaFromSQL` are well-defined, error-free
values for arbitrary, also malformed, input. -/
theorem claim_C6_parser_total (s : String) (k : Nat) :
    scanTablesAux (s.data.length + k) s.data = parseSQLTables s ∧
    scanFKAux (s.data.length + k) s.data = findRelationships s ∧
    scanTables2Aux (s.data.length + k) s.data = scanTables2Aux s.data.length s.data ∧
    findColMatchAux (s.data.length + k) s.data = findColMatchAux s.data.length s.data ∧
    wsTokensAux (s.data.length + k) s.data = wsTokens s.data := by
  refine ⟨?_, ?_, ?_, ?_, ?_⟩
  · exact scanTablesAux_congr s.data.length s.data le_rfl _ _ (by omega) le_rfl
  · exact scanFKAux_congr s.data.length s.data le_rfl _ _ (by omega) le_rfl
  · exact scanTables2Aux_congr s.data.length s.data le_rfl _ _ (by omega) le_rfl
  · exact findColMatchAux_congr s.data _ _ (by omega) le_rfl
  · exact wsTokensAux_congr s.data.length s.data le_rfl _ _ (by omega) le_rfl

/-- Claim C7: in any run whose status observations before the terminal one
are non-terminal and whose terminal observation is `completed` with a
successful result fetch, the client issues exactly one result fetch, issued
strictly after the last status fetch (the `completed` observation), and
issues zero further network calls afterwards, whatever responses follow. -/
theorem claim_C7_completed_single_result_fetch
    (pre : List (StatusResp × ResultResp)) (st : ClientState)
    (e : Option String) (res : String) (rest : List (StatusResp × ResultResp))
    (hc : st.cleared = false)
    (hnt : ∀ t ∈ pre, nonTerminalStatus t.1 = true) :
    (runPoll st (pre ++ (StatusResp.ok "completed" e, ResultResp.ok res) :: rest)).2
      = List.replicate (pre.length + 1) NetEvent.statusFetch ++ [NetEvent.resultFetch] ∧
    (runPoll st (pre ++ (StatusResp.ok "completed" e, ResultResp.ok res) :: rest)).1.cleared
      = true :=
  runPoll_completed_events pre st hc hnt e res rest

/-- Witness for C7 at the concrete trace queued → running → completed
(followed by one more would-be tick that must stay silent). -/
theorem claim_C7_completed_single_result_fetch_witness :
    (initClient.cleared = false ∧
      (∀ t ∈ [((StatusResp.ok "queued" none : StatusResp), ResultResp.ok "x"),
              (StatusResp.ok "running" none, ResultResp.ok "x")],
        nonTerminalStatus t.1 = true)) ∧
    (runPoll initClient ([(StatusResp.ok "queued" none, ResultResp.ok "x"),
        (StatusResp.ok "running" none, ResultResp.ok "x")] ++
        (StatusResp.ok "completed" none, ResultResp.ok "r") ::
        [(StatusResp.ok "running" none, ResultResp.ok "x")])).2
      = List.replicate 3 NetEvent.statusFetch ++ [NetEvent.resultFetch] :=
  ⟨⟨rfl, by decide⟩,
    (claim_C7_completed_single_result_fetch
      [(StatusResp.ok "queued" none, ResultResp.ok "x"),
       (StatusResp.ok "running" none, ResultResp.ok "x")]
      initClient none "r" [(StatusResp.ok "running" none, ResultResp.ok "x")]
      rfl (by decide)).1⟩

/-- Claim C8: on a `failed` status with a non-empty error string the client
stores exactly that string as its terminal error message; with the error
field absent it stores the non-empty generic fallback message. -/
theorem claim_C8_failed_error_message (st : ClientState) (e : String)
    (rr rr' : ResultResp) (hc : st.cleared = false) (he : e ≠ "") :
    (tick st (.ok "failed" (some e)) rr).1.error = some e ∧
    (tick st (.ok "failed" none) rr').1.error = some genericFailMsg ∧
    genericFailMsg ≠ "" ∧
    (tick st (.ok "failed" (some e)) rr).1.cleared = true := by
  refine ⟨?_, ?_, by decide, ?_⟩
  · simp [tick, hc, jsOr, he]
  · simp [tick, hc, jsOr]
  · simp [tick, hc]

/-- Witness for C8 at the concrete failed status with error `"disk full"`. -/
theorem claim_C8_failed_error_message_witness :
    (initClient.cleared = false ∧ ("disk full" : String) ≠ "") ∧
    (tick initClient (.ok "failed" (some "disk full")) (ResultResp.ok "r")).1.error
      = some "disk full" := by
  have h := claim_C8_failed_error_message initClient "disk full"
    (ResultResp.ok "r") (ResultResp.ok "r") rfl (by decide)
  exact ⟨⟨rfl, by decide⟩, h.1⟩

/-- Claim C9: the multipart part name is decided on the lower-cased file
name — `.cpy` in any case mixture goes to part `"copybook"`, `.dat` in any
case mixture to `"datafile"`, anything else to `"file"` (extension matching
is case-insensitive). -/
theorem claim_C9_upload_part_name (fn : String) :
    (endsWithStr (lowerStr fn) ".cpy" = true → uploadPartName fn = "copybook") ∧
    (endsWithStr (lowerStr fn) ".cpy" = false →
      endsWithStr (lowerStr fn) ".dat" = true → uploadPartName fn = "datafile") ∧
    (endsWithStr (lowerStr fn) ".cpy" = false →
      endsWithStr (lowerStr fn) ".dat" = false → uploadPartName fn = "file") := by
  refine ⟨fun h => ?_, fun h1 h2 => ?_, fun h1 h2 => ?_⟩
  · simp [uploadPartName, h]
  · simp [uploadPartName, h1, h2]
  · simp [uploadPartName, h1, h2]

/-- Witness for C9 at the mixed-case name `"X.CpY"`. -/
theorem claim_C9_upload_part_name_witness :
    endsWithStr (lowerStr "X.CpY") ".cpy" = true ∧
    uploadPartName "X.CpY" = "copybook" :=
  ⟨by decide, (claim_C9_upload_part_name "X.CpY").1 (by decide)⟩

/-- Claim C10: any comma-separated fragment whose trimmed upper-cased text
contains `CONSTRAINT` or `FOREIGN KEY` as a substring — also as part of an
ordinary column name such as `constraint_type` — produces no column; in the
concrete DDL fragment list `id INT, constraint_type INT, amount INT` the
middle column is silently dropped. -/
theorem claim_C10_constraint_substring_drops_column (line : List Char)
    (h : containsSub "CONSTRAINT".data (upperList (trimList line)) = true ∨
         containsSub "FOREIGN KEY".data (upperList (trimList line)) = true) :
    parseColumnFragment line = none ∧
    parseColumns "id INT, constraint_type INT, amount INT" =
      [⟨"id", "INT", false, false, false, false⟩,
       ⟨"amount", "INT", false, false, false, false⟩] := by
  refine ⟨?_, by decide⟩
  cases h with
  | inl h => simp [parseColumnFragment, h]
  | inr h => simp [parseColumnFragment, h]

/-- Witness for C10 at the concrete fragment `"constraint_type INT"`. -/
theorem claim_C10_constraint_substring_drops_column_witness :
    containsSub "CONSTRAINT".data
      (upperList (trimList "constraint_type INT".data)) = true ∧
    parseColumnFragment "constraint_type INT".data = none :=
  ⟨by decide, (claim_C10_constraint_substring_drops_column
    "constraint_type INT".data (Or.inl (by decide))).1⟩

end Modernization
